import Mathlib

/-!
# Verification of the MedicalRecord access-registry contract

Shallow embedding of `packages/contracts/contracts/MedicalRecord.sol`
(the time-bounded-grant version of the contract).

Addresses are modelled as `Nat` (0 is the zero address), `uint256`
timestamps/durations as `Nat` (Solidity ^0.8 uses checked arithmetic: no
wrap-around occurs, and the additions appearing here cannot reach `2^256`
for any clock value attainable by a block timestamp).  A reverting call is
modelled by `Except.error`: by the ledger's atomic all-or-nothing
semantics an error leaves the state exactly as it was before the call, so
operations return `Except Err RegistryState` and only the `.ok` result
carries a (new) state.  `msg.sender` is passed explicitly as `caller`,
`block.timestamp` as `now`.
-/

/-- Status of an access request (`enum RequestStatus`). -/
inductive RequestStatus where
  | Pending
  | Approved
  | Rejected
deriving DecidableEq, Repr

/-- A record pointer (`struct Record`). -/
structure Record where
  ipfsHash : String
  fileName : String
  doctor : Nat
  timestamp : Nat
deriving DecidableEq, Repr

/-- One access request (`struct AccessRequest`, time-bounded version). -/
structure AccessRequest where
  requester : Nat
  timestamp : Nat
  status : RequestStatus
  durationInHours : Nat
  grantedAt : Nat
  expiresAt : Nat
deriving DecidableEq, Repr

/-- The contract storage: the three mappings of `MedicalRecord`. -/
structure RegistryState where
  patientRecords : Nat → List Record
  accessRequests : Nat → List AccessRequest
  accessExpiry : Nat → Nat → Nat

/-- The empty storage a freshly deployed contract starts from. -/
def initState : RegistryState :=
  { patientRecords := fun _ => []
    accessRequests := fun _ => []
    accessExpiry := fun _ _ => 0 }

/-- The revert reasons of the contract (spec taxonomy section 7; the
contract's distinct `"Invalid requester"` require in `revokeAccess` and
`extendAccess` is kept as its own constructor). -/
inductive Err where
  | invalidPatient
  | invalidDuration
  | selfRequest
  | invalidRequestId
  | invalidRequest
  | alreadyResolved
  | noActiveGrant
  | noExistingGrant
  | exceedsMaxHorizon
  | unauthorized
  | invalidRequester
deriving DecidableEq, Repr

/-- `type(uint256).max`, returned by the self-access read paths. -/
def UINT256MAX : Nat := 2 ^ 256 - 1

/-- `1 hours` in seconds. -/
def oneHour : Nat := 3600

/-- `hasAccess`: the patient always has access to their own records;
otherwise access holds iff the stored expiry is non-zero and not in the
past. -/
def hasAccess (s : RegistryState) (now patient requester : Nat) : Bool :=
  if requester = patient then true
  else
    let expiry := s.accessExpiry patient requester
    decide (expiry > 0) && decide (now ≤ expiry)

/-- `getAccessExpiry`. -/
def getAccessExpiry (s : RegistryState) (patient requester : Nat) : Nat :=
  if requester = patient then UINT256MAX
  else s.accessExpiry patient requester

/-- `getRemainingAccess`. -/
def getRemainingAccess (s : RegistryState) (now patient requester : Nat) : Nat :=
  if requester = patient then UINT256MAX
  else
    let expiry := s.accessExpiry patient requester
    if expiry = 0 ∨ now > expiry then 0
    else expiry - now

/-- `requestAccess`: validates the patient and the duration, then appends
a `Pending` request; returns the new request's index. -/
def requestAccess (s : RegistryState) (now caller patient durationInHours : Nat) :
    Except Err (Nat × RegistryState) :=
  if patient = 0 then .error .invalidPatient
  else if durationInHours = 0 then .error .invalidDuration
  else if durationInHours > 8760 then .error .invalidDuration
  else if caller = patient then .error .selfRequest
  else
    let request : AccessRequest :=
      { requester := caller
        timestamp := now
        status := .Pending
        durationInHours := durationInHours
        grantedAt := 0
        expiresAt := 0 }
    let requestId := (s.accessRequests patient).length
    .ok (requestId,
      { s with accessRequests := fun p =>
          if p = patient then s.accessRequests patient ++ [request]
          else s.accessRequests p })

/-- `getRequests`: only the patient may list their own request history. -/
def getRequests (s : RegistryState) (caller patient : Nat) :
    Except Err (List AccessRequest) :=
  if caller = patient then .ok (s.accessRequests patient)
  else .error .unauthorized

/-- `respondToRequest`: the patient (caller) resolves a pending request;
approval stamps the request and installs the live grant for the pair. -/
def respondToRequest (s : RegistryState) (now caller requestId : Nat)
    (approve : Bool) : Except Err RegistryState :=
  match (s.accessRequests caller)[requestId]? with
  | none => .error .invalidRequestId
  | some request =>
    if request.requester = 0 then .error .invalidRequest
    else if request.status ≠ .Pending then .error .alreadyResolved
    else if approve then
      let expiresAt := now + request.durationInHours * oneHour
      .ok { s with
        accessRequests := fun p =>
          if p = caller then
            (s.accessRequests caller).set requestId
              { request with
                  status := .Approved
                  grantedAt := now
                  expiresAt := expiresAt }
          else s.accessRequests p
        accessExpiry := fun p r =>
          if p = caller ∧ r = request.requester then expiresAt
          else s.accessExpiry p r }
    else
      .ok { s with
        accessRequests := fun p =>
          if p = caller then
            (s.accessRequests caller).set requestId
              { request with status := .Rejected }
          else s.accessRequests p }

/-- `revokeAccess`: zero out a non-zero grant. -/
def revokeAccess (s : RegistryState) (caller requester : Nat) :
    Except Err RegistryState :=
  if requester = 0 then .error .invalidRequester
  else if s.accessExpiry caller requester = 0 then .error .noActiveGrant
  else
    .ok { s with accessExpiry := fun p r =>
      if p = caller ∧ r = requester then 0 else s.accessExpiry p r }

/-- `extendAccess`: push a non-zero grant's expiry forward from
`max(now, currentExpiry)`, capped at one year from `now`. -/
def extendAccess (s : RegistryState) (now caller requester additionalHours : Nat) :
    Except Err RegistryState :=
  if requester = 0 then .error .invalidRequester
  else if additionalHours = 0 then .error .invalidDuration
  else
    let currentExpiry := s.accessExpiry caller requester
    if currentExpiry = 0 then .error .noExistingGrant
    else
      let baseTime := if now > currentExpiry then now else currentExpiry
      let newExpiry := baseTime + additionalHours * oneHour
      if newExpiry > now + 8760 * oneHour then .error .exceedsMaxHorizon
      else
        .ok { s with accessExpiry := fun p r =>
          if p = caller ∧ r = requester then newExpiry else s.accessExpiry p r }

/-- The collection loop of `getActiveAccessors`: walk the (already
reversed) requester list, skip requesters whose live grant is zero or
expired, skip requesters already collected, and append fresh active ones
to the accumulator together with their live expiry. -/
def collectActive (expiryOf : Nat → Nat) (now : Nat) :
    List Nat → List (Nat × Nat) → List (Nat × Nat)
  | [], acc => acc
  | r :: rest, acc =>
    let e := expiryOf r
    if e = 0 ∨ now > e then collectActive expiryOf now rest acc
    else if r ∈ acc.map Prod.fst then collectActive expiryOf now rest acc
    else collectActive expiryOf now rest (acc ++ [(r, e)])

/-- `getActiveAccessors`: patient-only; returns the parallel arrays of
active accessors and their expiries, deduplicated newest-request-first. -/
def getActiveAccessors (s : RegistryState) (now caller patient : Nat) :
    Except Err (List Nat × List Nat) :=
  if caller ≠ patient then .error .unauthorized
  else
    let pairs := collectActive (s.accessExpiry patient) now
      (((s.accessRequests patient).reverse).map AccessRequest.requester) []
    .ok (pairs.map Prod.fst, pairs.map Prod.snd)

/-- `addRecord`: any caller with currently valid access may append a
record pointer. -/
def addRecord (s : RegistryState) (now caller patient : Nat)
    (ipfsHash fileName : String) : Except Err RegistryState :=
  if hasAccess s now patient caller then
    .ok { s with patientRecords := fun p =>
      if p = patient then
        s.patientRecords patient ++
          [{ ipfsHash := ipfsHash, fileName := fileName,
             doctor := caller, timestamp := now }]
      else s.patientRecords p }
  else .error .unauthorized

/-- `getRecords`: readable only with currently valid access. -/
def getRecords (s : RegistryState) (now caller patient : Nat) :
    Except Err (List Record) :=
  if hasAccess s now patient caller then .ok (s.patientRecords patient)
  else .error .unauthorized

/-- One state-mutating call to the contract, with its explicit caller. -/
inductive ContractAction where
  | requestAccess (caller patient durationInHours : Nat)
  | respondToRequest (caller requestId : Nat) (approve : Bool)
  | revokeAccess (caller requester : Nat)
  | extendAccess (caller requester additionalHours : Nat)
  | addRecord (caller patient : Nat) (ipfsHash fileName : String)

/-- Apply one mutating call at clock value `t`. -/
def applyAction (a : ContractAction) (t : Nat) (s : RegistryState) :
    Except Err RegistryState :=
  match a with
  | .requestAccess c p d => (requestAccess s t c p d).map Prod.snd
  | .respondToRequest c rid approve => respondToRequest s t c rid approve
  | .revokeAccess c r => revokeAccess s c r
  | .extendAccess c r ah => extendAccess s t c r ah
  | .addRecord c p ih fn => addRecord s t c p ih fn

/-- Apply a sequence of timestamped mutating calls, stopping at the first
revert. -/
def applyActions : List (ContractAction × Nat) → RegistryState → Except Err RegistryState
  | [], s => .ok s
  | (a, t) :: rest, s =>
    match applyAction a t s with
    | .ok s' => applyActions rest s'
    | .error e => .error e

/-! ## C1: `hasAccess` characterisation -/

/-- C1: for every patient identity `p`, requester identity `r`, grant state
and clock value `now`, `hasAccess p r` is true iff `r = p`, or the stored
grant expiry for `(p, r)` is non-zero and `now ≤` that expiry. -/
theorem hasAccess_iff (s : RegistryState) (now p r : Nat) :
    hasAccess s now p r = true ↔
      r = p ∨ (s.accessExpiry p r ≠ 0 ∧ now ≤ s.accessExpiry p r) := by
  unfold hasAccess
  by_cases h : r = p <;> simp [h, Nat.pos_iff_ne_zero]

/-! ## C8: `getRemainingAccess` characterisation -/

/-- C8: `getRemainingAccess p r` returns the maximum representable value
when `r = p`; otherwise it returns `0` when the grant for `(p, r)` is zero
or `now` is past the expiry, and `expiry - now` when the grant is non-zero
and `now ≤ expiry`. -/
theorem getRemainingAccess_spec (s : RegistryState) (now p r : Nat) :
    (r = p → getRemainingAccess s now p r = UINT256MAX) ∧
    (r ≠ p →
      ((s.accessExpiry p r = 0 ∨ now > s.accessExpiry p r) →
        getRemainingAccess s now p r = 0) ∧
      (s.accessExpiry p r ≠ 0 → now ≤ s.accessExpiry p r →
        getRemainingAccess s now p r = s.accessExpiry p r - now)) := by
  unfold getRemainingAccess
  refine ⟨fun h => by simp [h], fun h => ⟨fun h2 => by simp [h, h2], fun h1 h2 => ?_⟩⟩
  have hno : ¬ (s.accessExpiry p r = 0 ∨ now > s.accessExpiry p r) := by
    push_neg
    exact ⟨h1, h2⟩
  simp [h, hno]

/-- Witness for C8 at a concrete state: requester 2 holds a grant on
patient 1 expiring at 100; at clock 40 the remaining access is 60, and the
patient's own remaining access is the maximum value. -/
theorem getRemainingAccess_spec_witness :
    getRemainingAccess
      ⟨fun _ => [], fun _ => [],
        fun p r => if p = 1 ∧ r = 2 then 100 else 0⟩ 40 1 2 = 60 ∧
    getRemainingAccess
      ⟨fun _ => [], fun _ => [],
        fun p r => if p = 1 ∧ r = 2 then 100 else 0⟩ 40 1 1 = UINT256MAX := by
  constructor
  · exact ((getRemainingAccess_spec _ 40 1 2).2 (by decide)).2 (by decide) (by decide)
  · exact (getRemainingAccess_spec _ 40 1 1).1 rfl

/-! ## C7: `requestAccess` duration bounds -/

/-- C7: for a valid patient and a distinct requester, `requestAccess`
succeeds on the duration argument exactly when it lies in `(0, 8760]`;
duration `0` and `8761` fail with the invalid-duration error, and `8760`
succeeds and appends a `Pending` request at the returned index. -/
theorem requestAccess_duration_bounds (s : RegistryState) (now caller p : Nat)
    (hp : p ≠ 0) (hne : caller ≠ p) :
    (∀ d, (∃ res, requestAccess s now caller p d = .ok res) ↔
        (0 < d ∧ d ≤ 8760)) ∧
    requestAccess s now caller p 0 = .error .invalidDuration ∧
    requestAccess s now caller p 8761 = .error .invalidDuration ∧
    (∃ s', requestAccess s now caller p 8760 =
        .ok ((s.accessRequests p).length, s') ∧
      (s'.accessRequests p)[(s.accessRequests p).length]? =
        some ⟨caller, now, .Pending, 8760, 0, 0⟩) := by
  unfold requestAccess
  refine ⟨fun d => ?_, by simp [hp, hne], by simp [hp, hne], ?_⟩
  · by_cases h0 : d = 0
    · simp [hp, h0]
    · by_cases h1 : d > 8760
      · simp [hp, h0, h1, hne]
      · simp [hp, h0, h1, hne]
        omega
  · rw [if_neg hp, if_neg (by omega : ¬ (8760 : Nat) = 0),
      if_neg (by omega : ¬ (8760 : Nat) > 8760), if_neg hne]
    refine ⟨_, rfl, ?_⟩
    simp [List.getElem?_concat_length]

/-- Witness for C7 on the fresh registry: requester 2 asks patient 1. -/
theorem requestAccess_duration_bounds_witness :
    requestAccess initState 0 2 1 0 = .error .invalidDuration ∧
    requestAccess initState 0 2 1 8761 = .error .invalidDuration ∧
    (∃ s', requestAccess initState 0 2 1 8760 = .ok (0, s') ∧
      (s'.accessRequests 1)[0]? = some ⟨2, 0, .Pending, 8760, 0, 0⟩) :=
  have h := requestAccess_duration_bounds initState 0 2 1 (by decide) (by decide)
  ⟨h.2.1, h.2.2.1, h.2.2.2⟩

/-! ## C10: `requestAccess` never validates the requester identity -/

/-- C10: for every valid non-null patient and duration in `(0, 8760]`, a
call whose caller is the zero identity succeeds and appends a `Pending`
request whose requester field is the null identity, and a subsequent
`respondToRequest` on that request fails with the empty-slot
invalid-request error. -/
theorem requestAccess_zero_caller (s : RegistryState) (now now2 p d : Nat)
    (approve : Bool) (hp : p ≠ 0) (hd1 : 0 < d) (hd2 : d ≤ 8760) :
    ∃ s',
      requestAccess s now 0 p d = .ok ((s.accessRequests p).length, s') ∧
      (s'.accessRequests p)[(s.accessRequests p).length]? =
        some ⟨0, now, .Pending, d, 0, 0⟩ ∧
      respondToRequest s' now2 p (s.accessRequests p).length approve =
        .error .invalidRequest := by
  have h0p : (0 : Nat) ≠ p := fun h => hp h.symm
  unfold requestAccess
  rw [if_neg hp, if_neg (by omega : ¬ d = 0), if_neg (by omega : ¬ d > 8760),
    if_neg h0p]
  refine ⟨_, rfl, ?_, ?_⟩
  · simp [List.getElem?_concat_length]
  · unfold respondToRequest
    simp [List.getElem?_concat_length]

/-- Witness for C10: the zero identity requests 24 hours of access to
patient 1 on the fresh registry; the request lands as `Pending` with null
requester and approving it fails with the invalid-request error. -/
theorem requestAccess_zero_caller_witness :
    ∃ s',
      requestAccess initState 0 0 1 24 = .ok (0, s') ∧
      (s'.accessRequests 1)[0]? = some ⟨0, 0, .Pending, 24, 0, 0⟩ ∧
      respondToRequest s' 5 1 0 true = .error .invalidRequest :=
  requestAccess_zero_caller initState 0 5 1 24 true (by decide) (by decide)
    (by decide)

/-! ## C2: `respondToRequest` on a pending request -/

/-- C2: on a `Pending` request owned by the caller, approving sets the
request's status to `Approved`, `grantedAt` to `now`, `expiresAt` to
`now + durationHours * 3600`, and installs that expiry as the live grant
for `(caller, requester)` whatever the prior grant value was; rejecting
sets the status to `Rejected` and leaves the live grants untouched.  All
other requests and all other grant pairs are unchanged. -/
theorem respondToRequest_spec (s : RegistryState) (now caller rid : Nat)
    (req : AccessRequest)
    (hreq : (s.accessRequests caller)[rid]? = some req)
    (hr0 : req.requester ≠ 0)
    (hpend : req.status = .Pending) :
    (∃ s', respondToRequest s now caller rid true = .ok s' ∧
      (s'.accessRequests caller)[rid]? =
        some { req with status := .Approved, grantedAt := now,
                        expiresAt := now + req.durationInHours * 3600 } ∧
      s'.accessExpiry caller req.requester =
        now + req.durationInHours * 3600 ∧
      (∀ p r, ¬ (p = caller ∧ r = req.requester) →
        s'.accessExpiry p r = s.accessExpiry p r) ∧
      (∀ j, j ≠ rid →
        (s'.accessRequests caller)[j]? = (s.accessRequests caller)[j]?) ∧
      (∀ p, p ≠ caller → s'.accessRequests p = s.accessRequests p) ∧
      s'.patientRecords = s.patientRecords) ∧
    (∃ s', respondToRequest s now caller rid false = .ok s' ∧
      (s'.accessRequests caller)[rid]? = some { req with status := .Rejected } ∧
      s'.accessExpiry = s.accessExpiry ∧
      s'.patientRecords = s.patientRecords) := by
  have hlt : rid < (s.accessRequests caller).length :=
    (List.getElem?_eq_some_iff.mp hreq).1
  constructor
  · refine ⟨{ s with
        accessRequests := fun p =>
          if p = caller then
            (s.accessRequests caller).set rid
              { req with status := .Approved, grantedAt := now,
                         expiresAt := now + req.durationInHours * oneHour }
          else s.accessRequests p
        accessExpiry := fun p r =>
          if p = caller ∧ r = req.requester then
            now + req.durationInHours * oneHour
          else s.accessExpiry p r }, ?_, ?_, ?_, ?_, ?_, ?_, rfl⟩
    · unfold respondToRequest
      rw [hreq]
      simp [hr0, hpend]
    · simp [List.getElem?_set_self hlt, oneHour]
    · simp [oneHour]
    · intro p r h
      simp [h]
    · intro j hj
      simp [List.getElem?_set_ne (fun h => hj h.symm)]
    · intro p h
      simp [h]
  · refine ⟨{ s with
        accessRequests := fun p =>
          if p = caller then
            (s.accessRequests caller).set rid { req with status := .Rejected }
          else s.accessRequests p }, ?_, ?_, rfl, rfl⟩
    · unfold respondToRequest
      rw [hreq]
      simp [hr0, hpend]
    · simp [List.getElem?_set_self hlt]

/-- Witness for C2: patient 1 holds one pending 24-hour request from
requester 2 (who already has a prior grant of 50); approving at clock 10
stamps the request and overwrites the live grant with `10 + 24 * 3600`. -/
theorem respondToRequest_spec_witness :
    (∃ s', respondToRequest
        ⟨fun _ => [], fun p => if p = 1 then [⟨2, 0, .Pending, 24, 0, 0⟩] else [],
          fun p r => if p = 1 ∧ r = 2 then 50 else 0⟩ 10 1 0 true = .ok s' ∧
      (s'.accessRequests 1)[0]? =
        some ⟨2, 0, .Approved, 24, 10, 10 + 24 * 3600⟩ ∧
      s'.accessExpiry 1 2 = 10 + 24 * 3600) := by
  obtain ⟨s', h1, h2, h3, -⟩ :=
    (respondToRequest_spec
      ⟨fun _ => [], fun p => if p = 1 then [⟨2, 0, .Pending, 24, 0, 0⟩] else [],
        fun p r => if p = 1 ∧ r = 2 then 50 else 0⟩ 10 1 0
      ⟨2, 0, .Pending, 24, 0, 0⟩ (by decide) (by decide) (by decide)).1
  exact ⟨s', h1, h2, h3⟩

/-! ## C4: resolved requests are final -/

/-- C4: responding to a request whose status is no longer `Pending` fails
with `AlreadyResolved` (errors model reverts, so the registry state after
the failed call is the state before it); moreover every successful
mutating call preserves, entry for entry, every request whose status is
not `Pending`, so under any sequence of operations an `AccessRequest`'s
status transitions at most once away from `Pending`. -/
theorem resolved_requests_final :
    (∀ (s : RegistryState) (now caller rid : Nat) (req : AccessRequest)
        (approve : Bool),
      (s.accessRequests caller)[rid]? = some req →
      req.requester ≠ 0 →
      req.status ≠ .Pending →
      respondToRequest s now caller rid approve = .error .alreadyResolved) ∧
    (∀ (a : ContractAction) (t : Nat) (s s' : RegistryState),
      applyAction a t s = .ok s' →
      ∀ (p i : Nat) (req : AccessRequest),
        (s.accessRequests p)[i]? = some req →
        req.status ≠ .Pending →
        (s'.accessRequests p)[i]? = some req) := by
  constructor
  · intro s now caller rid req approve hreq hr0 hstat
    unfold respondToRequest
    rw [hreq]
    simp [hr0, hstat]
  · intro a t s s' hok p i req hreq hstat
    have hlt : i < (s.accessRequests p).length :=
      (List.getElem?_eq_some_iff.mp hreq).1
    cases a with
    | requestAccess c pt d =>
      unfold applyAction requestAccess at hok
      by_cases h1 : pt = 0
      · simp [h1, Except.map] at hok
      by_cases h2 : d = 0
      · simp [h1, h2, Except.map] at hok
      by_cases h3 : d > 8760
      · simp [h1, h2, h3, Except.map] at hok
      by_cases h4 : c = pt
      · simp [h1, h2, h3, h4, Except.map] at hok
      simp [h1, h2, h3, h4, Except.map] at hok
      subst hok
      by_cases h5 : p = pt
      · simp [h5, List.getElem?_append_left (h5 ▸ hlt)]
        rw [← h5, hreq]
      · simpa [h5] using hreq
    | respondToRequest c rid ap =>
      simp only [applyAction] at hok
      unfold respondToRequest at hok
      cases hm : (s.accessRequests c)[rid]? with
      | none => rw [hm] at hok; exact absurd hok (by simp)
      | some request =>
        rw [hm] at hok
        by_cases hq0 : request.requester = 0
        · simp [hq0] at hok
        by_cases hqp : request.status = RequestStatus.Pending
        · by_cases hpc : p = c
          · subst hpc
            by_cases hir : i = rid
            · subst hir
              rw [hm] at hreq
              cases hreq
              exact absurd hqp hstat
            · cases ap <;>
                simp [hq0, hqp, List.getElem?_set_ne (fun h => hir h.symm)]
                  at hok ⊢ <;>
                rw [← hok] <;>
                simp [List.getElem?_set_ne (fun h => hir h.symm), hreq]
          · cases ap <;> simp [hq0, hqp] at hok <;> rw [← hok] <;>
              simp [hpc, hreq]
        · simp [hq0, hqp] at hok
    | revokeAccess c r =>
      simp only [applyAction] at hok
      unfold revokeAccess at hok
      by_cases h1 : r = 0
      · simp [applyAction, h1] at hok
      by_cases h2 : s.accessExpiry c r = 0
      · simp [applyAction, h1, h2] at hok
      simp [applyAction, h1, h2] at hok
      rw [← hok]
      exact hreq
    | extendAccess c r ah =>
      simp only [applyAction] at hok
      unfold extendAccess at hok
      by_cases h1 : r = 0
      · simp [applyAction, h1] at hok
      by_cases h2 : ah = 0
      · simp [applyAction, h1, h2] at hok
      by_cases h3 : s.accessExpiry c r = 0
      · simp [applyAction, h1, h2, h3] at hok
      by_cases h4 : (if t > s.accessExpiry c r then t else s.accessExpiry c r)
          + ah * oneHour > t + 8760 * oneHour
      · simp [applyAction, h1, h2, h3, h4] at hok
      simp [applyAction, h1, h2, h3, h4] at hok
      rw [← hok]
      exact hreq
    | addRecord c pt ih fn =>
      simp only [applyAction] at hok
      unfold addRecord at hok
      by_cases h1 : hasAccess s t pt c = true
      · simp [applyAction, h1] at hok
        rw [← hok]
        exact hreq
      · simp [applyAction, h1] at hok

/-- Witness for C4: patient 1 holds an already-`Approved` request from
requester 2; a second response fails with `AlreadyResolved`, and a
successful revoke of the live grant leaves the resolved entry intact. -/
theorem resolved_requests_final_witness :
    respondToRequest
      ⟨fun _ => [], fun p => if p = 1 then [⟨2, 0, .Approved, 24, 0, 86400⟩] else [],
        fun p r => if p = 1 ∧ r = 2 then 86400 else 0⟩ 5 1 0 true =
      .error .alreadyResolved ∧
    ((⟨fun _ => [],
        fun p => if p = 1 then [⟨2, 0, .Approved, 24, 0, 86400⟩] else [],
        fun p r => if p = 1 ∧ r = 2 then 0 else
          if p = 1 ∧ r = 2 then 86400 else 0⟩ :
        RegistryState).accessRequests 1)[0]? =
      some ⟨2, 0, .Approved, 24, 0, 86400⟩ := by
  constructor
  · exact resolved_requests_final.1 _ 5 1 0 ⟨2, 0, .Approved, 24, 0, 86400⟩ true
      (by decide) (by decide) (by decide)
  · exact resolved_requests_final.2 (.revokeAccess 1 2) 5
      ⟨fun _ => [], fun p => if p = 1 then [⟨2, 0, .Approved, 24, 0, 86400⟩] else [],
        fun p r => if p = 1 ∧ r = 2 then 86400 else 0⟩ _ (by rfl) 1 0
      ⟨2, 0, .Approved, 24, 0, 86400⟩ (by decide) (by decide)

/-! ## C3: `extendAccess` semantics, including resurrection -/

/-- C3: on a non-zero (possibly expired) grant and `additionalHours > 0`,
`extendAccess` computes `newExpiry = max(now, currentExpiry) +
additionalHours * 3600`, fails with `ExceedsMaxHorizon` when that exceeds
`now + 8760 * 3600`, and otherwise installs `newExpiry`; extending an
expired non-zero grant yields `now + additionalHours * 3600` and makes
`hasAccess` true. -/
theorem extendAccess_spec (s : RegistryState)
    (now caller requester additionalHours : Nat)
    (hr0 : requester ≠ 0) (hadd : 0 < additionalHours)
    (hcur : s.accessExpiry caller requester ≠ 0) :
    (max now (s.accessExpiry caller requester) + additionalHours * 3600 >
        now + 8760 * 3600 →
      extendAccess s now caller requester additionalHours =
        .error .exceedsMaxHorizon) ∧
    (max now (s.accessExpiry caller requester) + additionalHours * 3600 ≤
        now + 8760 * 3600 →
      ∃ s', extendAccess s now caller requester additionalHours = .ok s' ∧
        s'.accessExpiry caller requester =
          max now (s.accessExpiry caller requester) + additionalHours * 3600 ∧
        (now > s.accessExpiry caller requester →
          s'.accessExpiry caller requester = now + additionalHours * 3600) ∧
        hasAccess s' now caller requester = true ∧
        (∀ p r, ¬ (p = caller ∧ r = requester) →
          s'.accessExpiry p r = s.accessExpiry p r) ∧
        s'.accessRequests = s.accessRequests ∧
        s'.patientRecords = s.patientRecords) := by
  have hmax := Nat.le_max_left now (s.accessExpiry caller requester)
  unfold extendAccess
  rw [if_neg hr0, if_neg (by omega : ¬ additionalHours = 0), if_neg hcur]
  have hbase :
      (if now > s.accessExpiry caller requester then now
        else s.accessExpiry caller requester) =
      max now (s.accessExpiry caller requester) := by
    rcases Nat.le_total now (s.accessExpiry caller requester) with h | h <;>
      split <;> omega
  simp only [oneHour, hbase]
  constructor
  · intro h
    rw [if_pos h]
  · intro h
    rw [if_neg (by omega)]
    refine ⟨{ s with
        accessExpiry := fun p r =>
          if p = caller ∧ r = requester then
            max now (s.accessExpiry caller requester) + additionalHours * 3600
          else s.accessExpiry p r }, rfl, by simp, ?_, ?_, ?_, rfl, rfl⟩
    · intro h2
      simp
      omega
    · by_cases hc : requester = caller
      · simp [hasAccess, hc]
      · simp [hasAccess, hc]
        omega
    · intro p r hpr
      simp [hpr]

/-- Witness for C3: requester 2's grant on patient 1 expired at 100; at
clock 7200 an extension by 24 hours resurrects it to `7200 + 86400`, while
an extension by 8760 hours at clock 0 would exceed the one-year horizon. -/
theorem extendAccess_spec_witness :
    (∃ s', extendAccess
        ⟨fun _ => [], fun _ => [],
          fun p r => if p = 1 ∧ r = 2 then 100 else 0⟩ 7200 1 2 24 = .ok s' ∧
      s'.accessExpiry 1 2 = 7200 + 24 * 3600 ∧
      hasAccess s' 7200 1 2 = true) ∧
    extendAccess
      ⟨fun _ => [], fun _ => [],
        fun p r => if p = 1 ∧ r = 2 then 100 else 0⟩ 0 1 2 8760 =
      .error .exceedsMaxHorizon := by
  constructor
  · obtain ⟨s', h1, -, h3, h4, -⟩ :=
      (extendAccess_spec
        ⟨fun _ => [], fun _ => [],
          fun p r => if p = 1 ∧ r = 2 then 100 else 0⟩ 7200 1 2 24
        (by decide) (by decide) (by decide)).2 (by decide)
    exact ⟨s', h1, h3 (by decide), h4⟩
  · exact (extendAccess_spec
      ⟨fun _ => [], fun _ => [],
        fun p r => if p = 1 ∧ r = 2 then 100 else 0⟩ 0 1 2 8760
      (by decide) (by decide) (by decide)).1 (by decide)

/-! ## C5: `revokeAccess` takes effect immediately -/

/-- C5: revoking a non-zero grant zeroes it, so that at the same clock
value `hasAccess` is false and a `getRecords` call by the revoked
requester fails with `Unauthorized`; revoking a zero grant fails with
`NoActiveGrant`.  Nothing else in the state changes. -/
theorem revokeAccess_spec (s : RegistryState) (now caller requester : Nat)
    (hr0 : requester ≠ 0) (hrc : requester ≠ caller) :
    (s.accessExpiry caller requester ≠ 0 →
      ∃ s', revokeAccess s caller requester = .ok s' ∧
        s'.accessExpiry caller requester = 0 ∧
        hasAccess s' now caller requester = false ∧
        getRecords s' now requester caller = .error .unauthorized ∧
        (∀ p r, ¬ (p = caller ∧ r = requester) →
          s'.accessExpiry p r = s.accessExpiry p r) ∧
        s'.accessRequests = s.accessRequests ∧
        s'.patientRecords = s.patientRecords) ∧
    (s.accessExpiry caller requester = 0 →
      revokeAccess s caller requester = .error .noActiveGrant) := by
  constructor
  · intro hcur
    unfold revokeAccess
    rw [if_neg hr0, if_neg hcur]
    have hfalse : hasAccess
        { s with accessExpiry := fun p r =>
            if p = caller ∧ r = requester then 0 else s.accessExpiry p r }
        now caller requester = false := by
      simp [hasAccess, hrc]
    refine ⟨_, rfl, by simp, hfalse, ?_, ?_, rfl, rfl⟩
    · unfold getRecords
      rw [if_neg (by simp [hfalse])]
    · intro p r hpr
      simp [hpr]
  · intro hcur
    unfold revokeAccess
    rw [if_neg hr0, if_pos hcur]

/-- Witness for C5: patient 1 revokes requester 2's live grant (expiry
86400) at clock 10; requester 3 has no grant to revoke. -/
theorem revokeAccess_spec_witness :
    (∃ s', revokeAccess
        ⟨fun _ => [], fun _ => [],
          fun p r => if p = 1 ∧ r = 2 then 86400 else 0⟩ 1 2 = .ok s' ∧
      s'.accessExpiry 1 2 = 0 ∧
      hasAccess s' 10 1 2 = false ∧
      getRecords s' 10 2 1 = .error .unauthorized) ∧
    revokeAccess
      ⟨fun _ => [], fun _ => [],
        fun p r => if p = 1 ∧ r = 2 then 86400 else 0⟩ 1 3 =
      .error .noActiveGrant := by
  constructor
  · obtain ⟨s', h1, h2, h3, h4, -⟩ :=
      (revokeAccess_spec
        ⟨fun _ => [], fun _ => [],
          fun p r => if p = 1 ∧ r = 2 then 86400 else 0⟩ 10 1 2
        (by decide) (by decide)).1 (by decide)
    exact ⟨s', h1, h2, h3, h4⟩
  · exact (revokeAccess_spec
      ⟨fun _ => [], fun _ => [],
        fun p r => if p = 1 ∧ r = 2 then 86400 else 0⟩ 10 1 3
      (by decide) (by decide)).2 (by decide)

/-! ## C9: approval is not monotone in the live grant expiry -/

/-- C9: a reachable scenario in which approving a second, shorter request
strictly decreases the live grant expiry: requester 2 obtains a 100-hour
grant on patient 1 (expiry 360000), then files a 1-hour request whose
approval overwrites the grant down to 3600. -/
theorem approve_not_monotone :
    (applyActions
      [(.requestAccess 2 1 100, 0), (.respondToRequest 1 0 true, 0),
       (.requestAccess 2 1 1, 0)] initState).map
        (fun s => s.accessExpiry 1 2) = .ok 360000 ∧
    (applyActions
      [(.requestAccess 2 1 100, 0), (.respondToRequest 1 0 true, 0),
       (.requestAccess 2 1 1, 0), (.respondToRequest 1 1 true, 0)]
      initState).map (fun s => s.accessExpiry 1 2) = .ok 3600 ∧
    (3600 : Nat) < 360000 :=
  ⟨rfl, rfl, by omega⟩

/-! ## C6: `getActiveAccessors` deduplication, filtering and ordering -/

/-- First-occurrence deduplication against an explicit list of already
seen elements; used to characterise the collection loop of
`getActiveAccessors`. -/
def dedupFirstAux (seen : List Nat) : List Nat → List Nat
  | [] => []
  | a :: l =>
    if a ∈ seen then dedupFirstAux seen l
    else a :: dedupFirstAux (a :: seen) l

theorem dedupFirstAux_cons_of_mem (seen : List Nat) (a : Nat) (l : List Nat)
    (h : a ∈ seen) :
    dedupFirstAux seen (a :: l) = dedupFirstAux seen l := by
  simp [dedupFirstAux, h]

theorem dedupFirstAux_cons_of_not_mem (seen : List Nat) (a : Nat) (l : List Nat)
    (h : a ∉ seen) :
    dedupFirstAux seen (a :: l) = a :: dedupFirstAux (a :: seen) l := by
  simp [dedupFirstAux, h]

theorem mem_dedupFirstAux (l : List Nat) (seen : List Nat) (b : Nat) :
    b ∈ dedupFirstAux seen l ↔ b ∈ l ∧ b ∉ seen := by
  induction l generalizing seen with
  | nil => simp [dedupFirstAux]
  | cons a l ih =>
    by_cases h : a ∈ seen
    · rw [dedupFirstAux_cons_of_mem _ _ _ h, ih]
      simp only [List.mem_cons]
      constructor
      · rintro ⟨h1, h2⟩
        exact ⟨Or.inr h1, h2⟩
      · rintro ⟨h1 | h1, h2⟩
        · exact absurd (h1 ▸ h) h2
        · exact ⟨h1, h2⟩
    · rw [dedupFirstAux_cons_of_not_mem _ _ _ h]
      simp only [List.mem_cons, ih]
      constructor
      · rintro (rfl | ⟨h1, h2⟩)
        · exact ⟨Or.inl rfl, h⟩
        · exact ⟨Or.inr h1, fun hb => h2 (Or.inr hb)⟩
      · rintro ⟨h1 | h1, h2⟩
        · exact Or.inl h1
        · by_cases hba : b = a
          · exact Or.inl hba
          · exact Or.inr ⟨h1, by simp [hba, h2]⟩

theorem nodup_dedupFirstAux (l seen : List Nat) :
    (dedupFirstAux seen l).Nodup := by
  induction l generalizing seen with
  | nil => simp [dedupFirstAux]
  | cons a l ih =>
    by_cases h : a ∈ seen
    · rw [dedupFirstAux_cons_of_mem _ _ _ h]
      exact ih seen
    · rw [dedupFirstAux_cons_of_not_mem _ _ _ h, List.nodup_cons]
      refine ⟨fun hmem => ?_, ih (a :: seen)⟩
      exact ((mem_dedupFirstAux _ _ _).mp hmem).2 (List.mem_cons_self a seen)

theorem dedupFirstAux_congr (l : List Nat) (s₁ s₂ : List Nat)
    (h : ∀ x ∈ l, x ∈ s₁ ↔ x ∈ s₂) :
    dedupFirstAux s₁ l = dedupFirstAux s₂ l := by
  induction l generalizing s₁ s₂ with
  | nil => rfl
  | cons a l ih =>
    by_cases ha : a ∈ s₁
    · have ha2 : a ∈ s₂ := (h a (List.mem_cons_self a l)).mp ha
      rw [dedupFirstAux_cons_of_mem _ _ _ ha, dedupFirstAux_cons_of_mem _ _ _ ha2]
      exact ih _ _ (fun x hx => h x (List.mem_cons_of_mem a hx))
    · have ha2 : a ∉ s₂ := fun hx => ha ((h a (List.mem_cons_self a l)).mpr hx)
      rw [dedupFirstAux_cons_of_not_mem _ _ _ ha,
        dedupFirstAux_cons_of_not_mem _ _ _ ha2]
      refine congrArg (a :: ·) (ih _ _ (fun x hx => ?_))
      simp only [List.mem_cons]
      exact or_congr Iff.rfl (h x (List.mem_cons_of_mem a hx))

theorem dedupFirstAux_filter (q : Nat → Bool) (l seen : List Nat) :
    dedupFirstAux seen (l.filter q) = (dedupFirstAux seen l).filter q := by
  induction l generalizing seen with
  | nil => rfl
  | cons a l ih =>
    by_cases hq : q a
    · rw [List.filter_cons_of_pos hq]
      by_cases ha : a ∈ seen
      · rw [dedupFirstAux_cons_of_mem _ _ _ ha,
          dedupFirstAux_cons_of_mem _ _ _ ha, ih]
      · rw [dedupFirstAux_cons_of_not_mem _ _ _ ha,
          dedupFirstAux_cons_of_not_mem _ _ _ ha,
          List.filter_cons_of_pos hq, ih]
    · rw [List.filter_cons_of_neg hq]
      by_cases ha : a ∈ seen
      · rw [dedupFirstAux_cons_of_mem _ _ _ ha, ih]
      · rw [dedupFirstAux_cons_of_not_mem _ _ _ ha,
          List.filter_cons_of_neg hq, ← ih (a :: seen)]
        refine dedupFirstAux_congr _ _ _ (fun x hx => ?_)
        have hxa : x ≠ a := fun hh => by
          rw [hh] at hx
          exact absurd (List.of_mem_filter hx) hq
        simp [hxa]

theorem pairwise_dedupFirstAux (l seen : List Nat) :
    (dedupFirstAux seen l).Pairwise
      (fun a b => l.indexOf a < l.indexOf b) := by
  induction l generalizing seen with
  | nil => simp [dedupFirstAux]
  | cons a l ih =>
    by_cases ha : a ∈ seen
    · rw [dedupFirstAux_cons_of_mem _ _ _ ha]
      refine (ih seen).imp_of_mem (fun {x y} hx hy hxy => ?_)
      have hxa : a ≠ x := fun hh =>
        ((mem_dedupFirstAux _ _ _).mp hx).2 (hh ▸ ha)
      have hya : a ≠ y := fun hh =>
        ((mem_dedupFirstAux _ _ _).mp hy).2 (hh ▸ ha)
      rw [List.indexOf_cons_ne _ hxa, List.indexOf_cons_ne _ hya]
      omega
    · rw [dedupFirstAux_cons_of_not_mem _ _ _ ha, List.pairwise_cons]
      constructor
      · intro b hb
        have hbl := (mem_dedupFirstAux _ _ _).mp hb
        have hba : a ≠ b := fun hh =>
          hbl.2 (hh ▸ List.mem_cons_self a seen)
        rw [List.indexOf_cons_self, List.indexOf_cons_ne _ hba]
        exact Nat.succ_pos _
      · refine (ih (a :: seen)).imp_of_mem (fun {x y} hx hy hxy => ?_)
        have hxa : a ≠ x := fun hh =>
          ((mem_dedupFirstAux _ _ _).mp hx).2 (hh ▸ List.mem_cons_self a seen)
        have hya : a ≠ y := fun hh =>
          ((mem_dedupFirstAux _ _ _).mp hy).2 (hh ▸ List.mem_cons_self a seen)
        rw [List.indexOf_cons_ne _ hxa, List.indexOf_cons_ne _ hya]
        omega

theorem collectActive_cons_inactive (expiryOf : Nat → Nat) (now r : Nat)
    (rest : List Nat) (acc : List (Nat × Nat))
    (h : expiryOf r = 0 ∨ now > expiryOf r) :
    collectActive expiryOf now (r :: rest) acc =
      collectActive expiryOf now rest acc := by
  simp [collectActive, h]

theorem collectActive_cons_dup (expiryOf : Nat → Nat) (now r : Nat)
    (rest : List Nat) (acc : List (Nat × Nat))
    (h1 : ¬ (expiryOf r = 0 ∨ now > expiryOf r))
    (h2 : r ∈ acc.map Prod.fst) :
    collectActive expiryOf now (r :: rest) acc =
      collectActive expiryOf now rest acc := by
  simp [collectActive, h1, h2]

theorem collectActive_cons_fresh (expiryOf : Nat → Nat) (now r : Nat)
    (rest : List Nat) (acc : List (Nat × Nat))
    (h1 : ¬ (expiryOf r = 0 ∨ now > expiryOf r))
    (h2 : r ∉ acc.map Prod.fst) :
    collectActive expiryOf now (r :: rest) acc =
      collectActive expiryOf now rest (acc ++ [(r, expiryOf r)]) := by
  simp [collectActive, h1, h2]

/-- The collection loop equals first-occurrence deduplication of the
active requesters, each paired with its live expiry. -/
theorem collectActive_eq (expiryOf : Nat → Nat) (now : Nat)
    (reqs : List Nat) (acc : List (Nat × Nat)) :
    collectActive expiryOf now reqs acc =
      acc ++ (dedupFirstAux (acc.map Prod.fst)
        (reqs.filter
          (fun r => decide (expiryOf r ≠ 0 ∧ now ≤ expiryOf r)))).map
        (fun r => (r, expiryOf r)) := by
  induction reqs generalizing acc with
  | nil => simp [collectActive, dedupFirstAux]
  | cons r rest ih =>
    by_cases hact : expiryOf r = 0 ∨ now > expiryOf r
    · have hq : (decide (expiryOf r ≠ 0 ∧ now ≤ expiryOf r)) = false := by
        simp only [decide_eq_false_iff_not]
        omega
      rw [collectActive_cons_inactive _ _ _ _ _ hact,
        List.filter_cons_of_neg (by simp [hq]), ih]
    · have hq : (decide (expiryOf r ≠ 0 ∧ now ≤ expiryOf r)) = true := by
        simp only [decide_eq_true_eq]
        omega
      rw [@List.filter_cons_of_pos _
        (fun x => decide (expiryOf x ≠ 0 ∧ now ≤ expiryOf x)) r rest hq]
      by_cases hmem : r ∈ acc.map Prod.fst
      · rw [collectActive_cons_dup _ _ _ _ _ hact hmem, ih,
          dedupFirstAux_cons_of_mem _ _ _ hmem]
      · rw [collectActive_cons_fresh _ _ _ _ _ hact hmem, ih,
          dedupFirstAux_cons_of_not_mem _ _ _ hmem]
        simp only [List.map_cons, List.map_append, List.append_assoc,
          List.singleton_append]
        congr 1
        refine congrArg
          (fun t => (r, expiryOf r) :: List.map (fun x => (x, expiryOf x)) t)
          (dedupFirstAux_congr _ _ _ (fun x hx => ?_))
        simp [or_comm]

theorem activeDedup_mem (e : Nat → Nat) (now : Nat) (l : List Nat) (r : Nat) :
    r ∈ dedupFirstAux []
        (l.filter (fun x => decide (e x ≠ 0 ∧ now ≤ e x))) ↔
      r ∈ l ∧ e r ≠ 0 ∧ now ≤ e r := by
  rw [mem_dedupFirstAux]
  simp [List.mem_filter]

theorem activeDedup_pairwise (e : Nat → Nat) (now : Nat) (l : List Nat) :
    (dedupFirstAux []
        (l.filter (fun x => decide (e x ≠ 0 ∧ now ≤ e x)))).Pairwise
      (fun a b => l.indexOf a < l.indexOf b) := by
  rw [dedupFirstAux_filter]
  exact List.Pairwise.sublist (List.filter_sublist _) (pairwise_dedupFirstAux l [])

/-- C6: a patient reading their own active accessors gets exactly one
entry per distinct requester whose live grant is non-zero and not expired,
no requester whose grant is zero or expired, ordered by that requester's
most recent request newest first (strictly increasing position of first
occurrence along the newest-first walk of the request history); the
parallel list carries each accessor's live expiry.  Non-patient callers
fail with `Unauthorized`. -/
theorem getActiveAccessors_spec (s : RegistryState) (now caller p : Nat) :
    (caller ≠ p → getActiveAccessors s now caller p = .error .unauthorized) ∧
    (caller = p → ∃ addrs expiries,
      getActiveAccessors s now caller p = .ok (addrs, expiries) ∧
      (∀ r, r ∈ addrs ↔
        ((∃ req ∈ s.accessRequests p, req.requester = r) ∧
          s.accessExpiry p r ≠ 0 ∧ now ≤ s.accessExpiry p r)) ∧
      addrs.Nodup ∧
      addrs.Pairwise (fun a b =>
        ((s.accessRequests p).reverse.map AccessRequest.requester).indexOf a <
          ((s.accessRequests p).reverse.map AccessRequest.requester).indexOf b) ∧
      expiries = addrs.map (s.accessExpiry p)) := by
  constructor
  · intro h
    unfold getActiveAccessors
    rw [if_pos h]
  · intro h
    subst h
    have hcoll := collectActive_eq (s.accessExpiry caller) now
      ((s.accessRequests caller).reverse.map AccessRequest.requester) []
    simp only [List.map_nil, List.nil_append] at hcoll
    have h1 : ∀ r, r ∈ (collectActive (s.accessExpiry caller) now
        ((s.accessRequests caller).reverse.map AccessRequest.requester)
        []).map Prod.fst ↔
        ((∃ req ∈ s.accessRequests caller, req.requester = r) ∧
          s.accessExpiry caller r ≠ 0 ∧ now ≤ s.accessExpiry caller r) := by
      intro r
      rw [hcoll, List.map_map]
      simp only [Function.comp_def, List.map_id_fun', id_eq]
      rw [activeDedup_mem]
      simp [List.mem_map, List.mem_reverse, and_assoc]
    have h2 : ((collectActive (s.accessExpiry caller) now
        ((s.accessRequests caller).reverse.map AccessRequest.requester)
        []).map Prod.fst).Nodup := by
      rw [hcoll, List.map_map]
      simp only [Function.comp_def, List.map_id_fun', id_eq]
      exact nodup_dedupFirstAux _ _
    have h3 : ((collectActive (s.accessExpiry caller) now
        ((s.accessRequests caller).reverse.map AccessRequest.requester)
        []).map Prod.fst).Pairwise (fun a b =>
          ((s.accessRequests caller).reverse.map
            AccessRequest.requester).indexOf a <
          ((s.accessRequests caller).reverse.map
            AccessRequest.requester).indexOf b) := by
      rw [hcoll, List.map_map]
      simp only [Function.comp_def, List.map_id_fun', id_eq]
      exact activeDedup_pairwise _ _ _
    have h4 : (collectActive (s.accessExpiry caller) now
        ((s.accessRequests caller).reverse.map AccessRequest.requester)
        []).map Prod.snd =
        ((collectActive (s.accessExpiry caller) now
          ((s.accessRequests caller).reverse.map AccessRequest.requester)
          []).map Prod.fst).map (s.accessExpiry caller) := by
      rw [hcoll, List.map_map, List.map_map, List.map_map]
      simp [Function.comp_def]
    refine ⟨_, _, ?_, h1, h2, h3, h4⟩
    unfold getActiveAccessors
    rw [if_neg (by simp)]

/-- Witness for C6: patient 1's history holds two requests from 2 (whose
live grant, expiry 100, is active at clock 50) and one from 3 (grant
zero); the active-accessor list contains 2 exactly once, not 3, and a
non-patient caller is rejected. -/
theorem getActiveAccessors_spec_witness :
    getActiveAccessors
      ⟨fun _ => [],
        fun p => if p = 1 then
          [⟨2, 0, .Approved, 1, 0, 50⟩, ⟨3, 5, .Pending, 24, 0, 0⟩,
           ⟨2, 9, .Approved, 24, 9, 100⟩] else [],
        fun p r => if p = 1 ∧ r = 2 then 100 else 0⟩ 50 4 1 =
      .error .unauthorized ∧
    (∃ addrs expiries,
      getActiveAccessors
        ⟨fun _ => [],
          fun p => if p = 1 then
            [⟨2, 0, .Approved, 1, 0, 50⟩, ⟨3, 5, .Pending, 24, 0, 0⟩,
             ⟨2, 9, .Approved, 24, 9, 100⟩] else [],
          fun p r => if p = 1 ∧ r = 2 then 100 else 0⟩ 50 1 1 =
        .ok (addrs, expiries) ∧
      2 ∈ addrs ∧ 3 ∉ addrs ∧ addrs.Nodup) := by
  constructor
  · exact (getActiveAccessors_spec
      ⟨fun _ => [],
        fun p => if p = 1 then
          [⟨2, 0, .Approved, 1, 0, 50⟩, ⟨3, 5, .Pending, 24, 0, 0⟩,
           ⟨2, 9, .Approved, 24, 9, 100⟩] else [],
        fun p r => if p = 1 ∧ r = 2 then 100 else 0⟩ 50 4 1).1 (by decide)
  · obtain ⟨addrs, expiries, hg, hmem, hnd, -, -⟩ :=
      (getActiveAccessors_spec
        ⟨fun _ => [],
          fun p => if p = 1 then
            [⟨2, 0, .Approved, 1, 0, 50⟩, ⟨3, 5, .Pending, 24, 0, 0⟩,
             ⟨2, 9, .Approved, 24, 9, 100⟩] else [],
          fun p r => if p = 1 ∧ r = 2 then 100 else 0⟩ 50 1 1).2 rfl
    refine ⟨addrs, expiries, hg, (hmem 2).mpr ⟨by decide, by decide, by decide⟩,
      fun hc => ?_, hnd⟩
    exact ((hmem 3).mp hc).2.1 (by decide)
